import Mathlib

/-!
Verification of the rank-battle-tracker HTTP proxy (src/api/index.go).

The Go program is a straight-line pipeline: fetch a season catalog (POST),
select the season whose time window contains the current instant, fetch the
top-1000 ranking feed (GET), reshape each row, and serve the aggregate as
JSON.  The development below shallowly embeds the pure logic of that file:

* upstream transport and JSON decoding are modelled by an `UpstreamEnv`
  oracle holding the decoded outcome of each upstream round-trip;
* Go `float64` JSON numbers are modelled as exact rationals (`ℚ`) — the
  program only divides a decoded number by 1000 and re-encodes it;
* Go `time.Parse` with the fixed layout `2006-01-02 15:04:05` is embedded
  as `goTimeParse` (4-digit year, fixed 2-digit month/day/minute/second,
  1-or-2-digit hour as Go's `stdHour` accepts, literal separators, range
  checks for hour/minute/second and the month/day checks Go performs after
  consuming the layout, and rejection of trailing text);
* `time.Time` comparison (`After`/`Before`) is embedded by `timeKey`, a
  strictly monotone encoding of the parsed calendar components — all parsed
  instants share the same implicit zone, so Go's instant order coincides
  with lexicographic component order;
* Go map iteration order is unspecified, so the two-level season map is
  embedded as `List (List SeasonData)` and order variation is quantified
  over permutations of the flattened record list;
* Go `range` yields a copy of each element: loop bodies that assign to the
  loop variable are embedded as functions that build the updated copy, and
  the loops discard it exactly where the Go code does.
-/

deriving instance DecidableEq for Except

namespace RankBattle

/-! ## String and character constants used by the program -/

def secondsSuffix : String := ":00"

def iconBaseUrl : String := "https://resource.pokemon-home.com/battledata/img/icons/trainer/"

def methodGet : String := "GET"

def methodPost : String := "POST"

def allowOriginKey : String := "Access-Control-Allow-Origin"

def starVal : String := "*"

def contentTypeKey : String := "Content-Type"

def jsonVal : String := "application/json"

def textPlainVal : String := "text/plain; charset=utf-8"

def xctoKey : String := "X-Content-Type-Options"

def nosniffVal : String := "nosniff"

def contentLengthKey : String := "Content-Length"

def slashChar : Char := '/'

def dashChar : Char := '-'

def spaceChar : Char := ' '

def colonChar : Char := ':'

/-! ## Data model (structs of src/api/index.go) -/

/-- Error taxonomy of the program (spec §7).  The Go code returns
`fmt.Errorf` strings; each constructor stands for one distinct format
string site. -/
inductive GoError where
  | transportError : GoError
  | upstreamStatusError : Nat → GoError
  | decodeError : GoError
  | malformedTimestamp : GoError
  | noActiveSeason : GoError
  | shortRanking : GoError
deriving DecidableEq, Repr

/-- Go struct `SeasonData` (src/api/index.go lines 13-25). -/
structure SeasonData where
  CID : String
  Cnt : ℚ
  End : String
  Name : String
  RankCnt : Int
  Rst : Int
  Rule : Int
  Season : Int
  Start : String
  Ts1 : ℚ
  Ts2 : ℚ
deriving DecidableEq, Repr

/-- Go struct `SeasonList` (lines 28-30).  The two-level
`map[string]map[string]SeasonData` is embedded as a list of groups in
iteration order; the map keys play no role in any behaviour of the file. -/
structure SeasonList where
  Seasons : List (List SeasonData)
deriving DecidableEq, Repr

/-- Go struct `RankResponseRawData` (lines 33-39). -/
structure RankResponseRawData where
  Rank : Int
  RatingValue : ℚ
  Icon : String
  Name : String
  Lng : String
deriving DecidableEq, Repr

/-- Go struct `RankingResponse` (lines 42-45). -/
structure RankingResponse where
  SeasonData : SeasonData
  Top1000 : List RankResponseRawData
deriving DecidableEq, Repr

/-! ## Go `time.Parse` with layout `2006-01-02 15:04:05` -/

/-- Parsed calendar components of one timestamp. -/
structure DateTime where
  year : Nat
  month : Nat
  day : Nat
  hour : Nat
  minute : Nat
  second : Nat
deriving DecidableEq, Repr

/-- Numeric value of an ASCII digit, as Go's `isDigit`/`atoi` see it. -/
def digitVal? (c : Char) : Option Nat :=
  if 48 ≤ c.toNat ∧ c.toNat ≤ 57 then some (c.toNat - 48) else none

/-- Go `getnum` with `fixed = true`: exactly two digits. -/
def getnum2 : List Char → Option (Nat × List Char)
  | a :: b :: rest =>
    match digitVal? a, digitVal? b with
    | some x, some y => some (10 * x + y, rest)
    | _, _ => none
  | _ => none

/-- Go `getnum` with `fixed = false` (used for the `15` hour chunk):
one digit, or two when the second character is also a digit. -/
def getnumFlex : List Char → Option (Nat × List Char)
  | a :: b :: rest =>
    match digitVal? a, digitVal? b with
    | some x, some y => some (10 * x + y, rest)
    | some x, none => some (x, b :: rest)
    | none, _ => none
  | [a] =>
    match digitVal? a with
    | some x => some (x, [])
    | none => none
  | [] => none

/-- Go's `stdLongYear` chunk: exactly four digits. -/
def getnum4 : List Char → Option (Nat × List Char)
  | a :: b :: c :: d :: rest =>
    match digitVal? a, digitVal? b, digitVal? c, digitVal? d with
    | some x1, some x2, some x3, some x4 =>
      some (((x1 * 10 + x2) * 10 + x3) * 10 + x4, rest)
    | _, _, _, _ => none
  | _ => none

/-- Consume one literal layout character. -/
def expectChar (c : Char) : List Char → Option (List Char)
  | d :: rest => if d = c then some rest else none
  | [] => none

/-- Go `isLeap`. -/
def isLeapYear (y : Nat) : Bool :=
  y % 4 = 0 ∧ (y % 100 ≠ 0 ∨ y % 400 = 0)

/-- Go `daysIn(m, year)`. -/
def daysIn (month year : Nat) : Nat :=
  if month = 2 then (if isLeapYear year then 29 else 28)
  else if month = 4 ∨ month = 6 ∨ month = 9 ∨ month = 11 then 30
  else 31

/-- Layout consumption for `2006-01-02 15:04:05`, with the inline range
checks Go performs for hour, minute and second; returns the remaining
(unconsumed) input. -/
def parseCore (l : List Char) : Option (DateTime × List Char) :=
  match getnum4 l with
  | none => none
  | some (year, r1) =>
    match expectChar dashChar r1 with
    | none => none
    | some r2 =>
      match getnum2 r2 with
      | none => none
      | some (month, r3) =>
        match expectChar dashChar r3 with
        | none => none
        | some r4 =>
          match getnum2 r4 with
          | none => none
          | some (day, r5) =>
            match expectChar spaceChar r5 with
            | none => none
            | some r6 =>
              match getnumFlex r6 with
              | none => none
              | some (hour, r7) =>
                if 24 ≤ hour then none else
                match expectChar colonChar r7 with
                | none => none
                | some r8 =>
                  match getnum2 r8 with
                  | none => none
                  | some (minute, r9) =>
                    if 60 ≤ minute then none else
                    match expectChar colonChar r9 with
                    | none => none
                    | some r10 =>
                      match getnum2 r10 with
                      | none => none
                      | some (second, r11) =>
                        if 60 ≤ second then none else
                        some ({ year := year, month := month, day := day,
                                hour := hour, minute := minute, second := second }, r11)

/-- Go `time.Parse("2006-01-02 15:04:05", s)`: consume the layout, reject
trailing text, then apply Go's month and day-of-month range checks. -/
def goTimeParse (s : String) : Option DateTime :=
  match parseCore s.data with
  | none => none
  | some (t, rest) =>
    if rest ≠ [] then none
    else if t.month < 1 ∨ 12 < t.month then none
    else if t.day < 1 ∨ daysIn t.month t.year < t.day then none
    else some t

/-- Strictly monotone encoding of the parsed components; two parsed
timestamps compare under Go `After`/`Before` exactly as their keys
compare under `<`. -/
def timeKey (t : DateTime) : Nat :=
  ((((t.year * 12 + t.month) * 31 + t.day) * 24 + t.hour) * 60 + t.minute) * 60 + t.second

/-- Go `strings.Replace(s, "/", "-", -1)` for the single-character pattern:
replace every slash by a dash. -/
def slashToDash (c : Char) : Char :=
  if c = slashChar then dashChar else c

/-- Replace every slash of a string by a dash. -/
def replaceSlash (s : String) : String :=
  String.mk (s.data.map slashToDash)

/-- Date normalisation used at both parse sites (lines 81/86 and 194/199):
slashes become dashes and a `:00` seconds field is appended
unconditionally. -/
def normalizeDate (s : String) : String :=
  replaceSlash s ++ secondsSuffix

/-- The inline time-window parser of the program: normalise, then parse
with the fixed layout; a mismatch is the `MalformedTimestamp` error. -/
def parseUpstreamDate (s : String) : Except GoError DateTime :=
  match goTimeParse (normalizeDate s) with
  | some t => Except.ok t
  | none => Except.error GoError.malformedTimestamp

/-! ## Go `Format("2006-01-02 15:04:05")` (used only inside the discarded
catalog-loop writes) -/

/-- ASCII digit character for a value below ten. -/
def digitChar (d : Nat) : Char := Char.ofNat (48 + d)

/-- Two zero-padded digits. -/
def pad2chars (n : Nat) : List Char := [digitChar (n / 10 % 10), digitChar (n % 10)]

/-- Four zero-padded digits. -/
def pad4chars (n : Nat) : List Char :=
  [digitChar (n / 1000 % 10), digitChar (n / 100 % 10), digitChar (n / 10 % 10), digitChar (n % 10)]

def pad2 (n : Nat) : String := String.mk (pad2chars n)

def pad4 (n : Nat) : String := String.mk (pad4chars n)

def dashStr : String := "-"

def slashStr : String := "/"

def spaceStr : String := " "

def colonStr : String := ":"

/-- Go `t.Format("2006-01-02 15:04:05")` on a parsed (hence in-range)
timestamp. -/
def formatDateTime (t : DateTime) : String :=
  pad4 t.year ++ dashStr ++ pad2 t.month ++ dashStr ++ pad2 t.day ++ spaceStr ++
    pad2 t.hour ++ colonStr ++ pad2 t.minute ++ colonStr ++ pad2 t.second

/-- Canonical dash-separated date string without a seconds field. -/
def formatDashNoSec (t : DateTime) : String :=
  pad4 t.year ++ dashStr ++ pad2 t.month ++ dashStr ++ pad2 t.day ++ spaceStr ++
    pad2 t.hour ++ colonStr ++ pad2 t.minute

/-- Canonical slash-separated date string without a seconds field (the
upstream's native shape). -/
def formatSlashNoSec (t : DateTime) : String :=
  pad4 t.year ++ slashStr ++ pad2 t.month ++ slashStr ++ pad2 t.day ++ spaceStr ++
    pad2 t.hour ++ colonStr ++ pad2 t.minute

/-- The character sequence `YYYY-MM-DD HH:MM:SS` of a timestamp followed by
an arbitrary tail, in the exact shape the layout parser consumes. -/
def patternChars (t : DateTime) (tail : List Char) : List Char :=
  pad4chars t.year ++ dashChar :: (pad2chars t.month ++ dashChar :: (pad2chars t.day ++
    spaceChar :: (pad2chars t.hour ++ colonChar :: (pad2chars t.minute ++
      colonChar :: (pad2chars t.second ++ tail)))))

/-- Component ranges accepted by `goTimeParse`. -/
def ValidDateTime (t : DateTime) : Prop :=
  t.year < 10000 ∧ 1 ≤ t.month ∧ t.month ≤ 12 ∧ 1 ≤ t.day ∧
    t.day ≤ daysIn t.month t.year ∧ t.hour < 24 ∧ t.minute < 60 ∧ t.second < 60

instance (t : DateTime) : Decidable (ValidDateTime t) := by
  unfold ValidDateTime
  infer_instance

/-- The timestamp with its seconds field cleared — what parsing a
seconds-less date string yields. -/
def noSeconds (t : DateTime) : DateTime := { t with second := 0 }

/-! ## fetchRankingData (lines 47-97): catalog fetch and its validation loop -/

/-- Oracle for the two upstream round-trips of one request: the outcome of
the catalog POST (transport + status + JSON decode, lines 48-77) and of the
ranking GET (lines 101-116), plus the wall clock observed by
`time.Now()`. -/
structure UpstreamEnv where
  catalogOutcome : Except GoError SeasonList
  rankingOutcome : Except GoError (List RankResponseRawData)
  now : Nat
deriving Repr

/-- Loop body of lines 80-93: `range` hands the loop a copy of the record;
the body normalises and parses both dates and then writes the re-formatted
strings into that copy, which the caller discards. -/
def validateSeasonData (seasonData : SeasonData) : Except GoError SeasonData :=
  match goTimeParse (normalizeDate seasonData.Start) with
  | none => Except.error GoError.malformedTimestamp
  | some start =>
    match goTimeParse (normalizeDate seasonData.End) with
    | none => Except.error GoError.malformedTimestamp
    | some endTime =>
      Except.ok { seasonData with Start := formatDateTime start, End := formatDateTime endTime }

/-- Inner loop of lines 80-93 over one map group; the updated copy produced
by `validateSeasonData` is dropped, exactly as Go drops the `range` copy. -/
def validateGroup : List SeasonData → Except GoError Unit
  | [] => Except.ok ()
  | seasonData :: rest =>
    match validateSeasonData seasonData with
    | Except.error e => Except.error e
    | Except.ok _ => validateGroup rest

/-- Outer loop of lines 79-94 over the map groups. -/
def validateSeasons : List (List SeasonData) → Except GoError Unit
  | [] => Except.ok ()
  | group :: rest =>
    match validateGroup group with
    | Except.error e => Except.error e
    | Except.ok _ => validateSeasons rest

/-- Go `fetchRankingData` (lines 47-97): the transport/decode outcome comes
from the oracle, then the date-validation loop runs, then the decoded list
itself is returned. -/
def fetchRankingData (env : UpstreamEnv) : Except GoError SeasonList :=
  match env.catalogOutcome with
  | Except.error e => Except.error e
  | Except.ok seasonList =>
    match validateSeasons seasonList.Seasons with
    | Except.error e => Except.error e
    | Except.ok _ => Except.ok seasonList

/-- Loop body of lines 80-90 with the two rewrite assignments (lines 91-92)
removed: parse both dates and return nothing.  This is the comparison
definition for the refinement claim that the rewrites have no effect. -/
def checkSeasonDataDates (seasonData : SeasonData) : Except GoError Unit :=
  match goTimeParse (normalizeDate seasonData.Start) with
  | none => Except.error GoError.malformedTimestamp
  | some _ =>
    match goTimeParse (normalizeDate seasonData.End) with
    | none => Except.error GoError.malformedTimestamp
    | some _ => Except.ok ()

def checkGroupDates : List SeasonData → Except GoError Unit
  | [] => Except.ok ()
  | seasonData :: rest =>
    match checkSeasonDataDates seasonData with
    | Except.error e => Except.error e
    | Except.ok _ => checkGroupDates rest

def checkSeasonsDates : List (List SeasonData) → Except GoError Unit
  | [] => Except.ok ()
  | group :: rest =>
    match checkGroupDates group with
    | Except.error e => Except.error e
    | Except.ok _ => checkSeasonsDates rest

/-- `fetchRankingData` with the rewrite assignments removed (refinement
comparison definition). -/
def fetchRankingDataNoRewrite (env : UpstreamEnv) : Except GoError SeasonList :=
  match env.catalogOutcome with
  | Except.error e => Except.error e
  | Except.ok seasonList =>
    match checkSeasonsDates seasonList.Seasons with
    | Except.error e => Except.error e
    | Except.ok _ => Except.ok seasonList

/-! ## getLatestSeasonData (lines 189-210): season selection -/

/-- Inner loop of lines 192-207 over one map group.  The Go body assigns
the normalised strings to the `range` copy's `Start`/`End` fields before
parsing them, and on a window match returns that mutated copy; both
mutations are visible in the returned record. -/
def seasonMatchLoop (now : Nat) : List SeasonData → Except GoError (Option SeasonData)
  | [] => Except.ok none
  | seasonData :: rest =>
    match goTimeParse (normalizeDate seasonData.Start) with
    | none => Except.error GoError.malformedTimestamp
    | some start =>
      match goTimeParse (normalizeDate seasonData.End) with
      | none => Except.error GoError.malformedTimestamp
      | some endTime =>
        if timeKey start < now ∧ now < timeKey endTime then
          Except.ok (some { seasonData with Start := normalizeDate seasonData.Start,
                                            End := normalizeDate seasonData.End })
        else seasonMatchLoop now rest

/-- Go `getLatestSeasonData` (lines 189-210), with `time.Now()` passed in
as `now`: first record whose window strictly contains `now` wins; a parse
failure anywhere before a match aborts; otherwise `NoActiveSeason`. -/
def getLatestSeasonData (now : Nat) : List (List SeasonData) → Except GoError SeasonData
  | [] => Except.error GoError.noActiveSeason
  | group :: rest =>
    match seasonMatchLoop now group with
    | Except.error e => Except.error e
    | Except.ok (some s) => Except.ok s
    | Except.ok none => getLatestSeasonData now rest

/-- Record with both date fields normalised, as season selection returns
it. -/
def normalizeRecord (r : SeasonData) : SeasonData :=
  { r with Start := normalizeDate r.Start, End := normalizeDate r.End }

/-- Single-level form of the selection loop, used to reason about the
flattened record sequence. -/
def selectFlat (now : Nat) : List SeasonData → Except GoError SeasonData
  | [] => Except.error GoError.noActiveSeason
  | seasonData :: rest =>
    match goTimeParse (normalizeDate seasonData.Start) with
    | none => Except.error GoError.malformedTimestamp
    | some start =>
      match goTimeParse (normalizeDate seasonData.End) with
      | none => Except.error GoError.malformedTimestamp
      | some endTime =>
        if timeKey start < now ∧ now < timeKey endTime then
          Except.ok (normalizeRecord seasonData)
        else selectFlat now rest

/-- Parsed window of a record, when both its date strings parse. -/
def parseWindow (r : SeasonData) : Option (Nat × Nat) :=
  match goTimeParse (normalizeDate r.Start), goTimeParse (normalizeDate r.End) with
  | some a, some b => some (timeKey a, timeKey b)
  | _, _ => none

/-- Does the record's window strictly contain `now`?  False when either
date string is malformed. -/
def activeAt (now : Nat) (r : SeasonData) : Bool :=
  match parseWindow r with
  | some (a, b) => decide (a < now ∧ now < b)
  | none => false

/-! ## fetchTop1000RankingData (lines 100-124) and row conversion -/

/-- Loop body of lines 129-136: one raw row reshaped. -/
def convertRow (data : RankResponseRawData) : RankResponseRawData :=
  { Rank := data.Rank,
    RatingValue := data.RatingValue / 1000,
    Icon := iconBaseUrl ++ data.Icon,
    Name := data.Name,
    Lng := data.Lng }

/-- Go `convertRawDataToResponse` (lines 127-138): `result` has the length
of the input and slot `i` is built from row `i`. -/
def convertRawDataToResponse (rawData : List RankResponseRawData) : List RankResponseRawData :=
  rawData.map convertRow

/-- Lines 118-123 of `fetchTop1000RankingData`: the length guard and the
conversion, applied to the decoded upstream array. -/
def top1000FromDecoded (rankingData : List RankResponseRawData) :
    Except GoError (List RankResponseRawData) :=
  if rankingData.length < 1000 then Except.error GoError.shortRanking
  else Except.ok (convertRawDataToResponse rankingData)

/-- Go `fetchTop1000RankingData` (lines 100-124): transport/decode outcome
from the oracle, then the guard and conversion. -/
def fetchTop1000RankingData (env : UpstreamEnv) : Except GoError (List RankResponseRawData) :=
  match env.rankingOutcome with
  | Except.error e => Except.error e
  | Except.ok rankingData => top1000FromDecoded rankingData

/-! ## RankingHandler (lines 141-179) -/

/-- One upstream round-trip actually issued while handling a request. -/
inductive UpstreamCall where
  | catalogPost : UpstreamCall
  | rankingGet : UpstreamCall
deriving DecidableEq, Repr

/-- Response header map; keys here are already in canonical form. -/
abbrev Headers := List (String × String)

/-- Go `Header().Set`: replace the value of an existing key or append. -/
def setHeader (hs : Headers) (k v : String) : Headers :=
  if hs.any (fun p => p.1 = k) then hs.map (fun p => if p.1 = k then (k, v) else p)
  else hs ++ [(k, v)]

/-- Go `Header().Del`. -/
def delHeader (hs : Headers) (k : String) : Headers :=
  hs.filter (fun p => p.1 ≠ k)

/-- First value stored for a key. -/
def getHeader (hs : Headers) (k : String) : Option String :=
  (hs.find? (fun p => p.1 = k)).map (fun p => p.2)

/-- The final state of one HTTP response: status code, header map, and the
JSON body when the success path was taken (error bodies are plain text and
are not modelled beyond their absence of a JSON body). -/
structure HttpResponse where
  status : Nat
  headers : Headers
  body : Option RankingResponse
deriving DecidableEq, Repr

/-- Go `http.Error(w, msg, code)` from net/http: it deletes
`Content-Length`, overwrites `Content-Type` with
`text/plain; charset=utf-8`, sets `X-Content-Type-Options: nosniff`, and
writes the status code and a plain-text body. -/
def httpError (hs : Headers) (code : Nat) : HttpResponse :=
  { status := code,
    headers := setHeader (setHeader (delHeader hs contentLengthKey) contentTypeKey textPlainVal)
      xctoKey nosniffVal,
    body := none }

/-- Headers set unconditionally on entry (lines 142-143). -/
def baseHeaders : Headers :=
  setHeader (setHeader [] allowOriginKey starVal) contentTypeKey jsonVal

/-- Go `RankingHandler` (lines 141-179), returning the response together
with the list of upstream calls issued.  JSON encoding of the success body
cannot fail on these value types, so the encoder branch of line 175 is the
success exit. -/
def RankingHandler (env : UpstreamEnv) (method : String) : HttpResponse × List UpstreamCall :=
  if method ≠ methodGet then (httpError baseHeaders 405, [])
  else
    match fetchRankingData env with
    | Except.error _ => (httpError baseHeaders 500, [UpstreamCall.catalogPost])
    | Except.ok seasonList =>
      match getLatestSeasonData env.now seasonList.Seasons with
      | Except.error _ => (httpError baseHeaders 500, [UpstreamCall.catalogPost])
      | Except.ok latestSeasonData =>
        match fetchTop1000RankingData env with
        | Except.error _ =>
          (httpError baseHeaders 500, [UpstreamCall.catalogPost, UpstreamCall.rankingGet])
        | Except.ok top1000Data =>
          ({ status := 200, headers := baseHeaders,
             body := some { SeasonData := latestSeasonData, Top1000 := top1000Data } },
           [UpstreamCall.catalogPost, UpstreamCall.rankingGet])

/-! ## Concrete fixtures -/

/-- A season record in the upstream's native shape (slash dates, no
seconds). -/
def seasonGood : SeasonData :=
  { CID := "t-12345", Cnt := 0, End := "2024/02/01 09:00", Name := "Season 13",
    RankCnt := 1000, Rst := 0, Rule := 0, Season := 13, Start := "2024/01/01 09:00",
    Ts1 := 1704067200, Ts2 := 1706745600 }

/-- A record whose start date is malformed. -/
def seasonBad : SeasonData :=
  { CID := "t-99999", Cnt := 0, End := "2024/02/01 09:00", Name := "Broken",
    RankCnt := 1000, Rst := 0, Rule := 0, Season := 14, Start := "oops",
    Ts1 := 0, Ts2 := 0 }

/-- A valid record whose window lies strictly after `seasonGood`'s. -/
def seasonLater : SeasonData :=
  { CID := "t-55555", Cnt := 0, End := "2024/04/01 00:00", Name := "Season 15",
    RankCnt := 1000, Rst := 0, Rule := 0, Season := 15, Start := "2024/03/01 00:00",
    Ts1 := 0, Ts2 := 0 }

/-- The raw ranking row of spec §8. -/
def row0 : RankResponseRawData :=
  { Rank := 1, RatingValue := 18230, Icon := "0001.png", Name := "Ash", Lng := "ja" }

/-- The transformed entry the spec expects for `row0`. -/
def expectedRow0 : RankResponseRawData :=
  { Rank := 1, RatingValue := 18.23,
    Icon := "https://resource.pokemon-home.com/battledata/img/icons/trainer/0001.png",
    Name := "Ash", Lng := "ja" }

/-- An instant strictly inside `seasonGood`'s window. -/
def nowMid : Nat :=
  timeKey { year := 2024, month := 1, day := 15, hour := 0, minute := 0, second := 0 }

def slOk : SeasonList := { Seasons := [[seasonGood]] }

def bigList : List RankResponseRawData := List.replicate 1000 row0

/-- An environment in which both upstream calls succeed and `seasonGood`
is active. -/
def envOk : UpstreamEnv :=
  { catalogOutcome := Except.ok slOk, rankingOutcome := Except.ok bigList, now := nowMid }

def normStartStr : String := "2024-01-01 09:00:00"

/-- Parsed components of `seasonGood.Start`. -/
def startDT0 : DateTime :=
  { year := 2024, month := 1, day := 1, hour := 9, minute := 0, second := 0 }

/-- Parsed components of `seasonGood.End`. -/
def endDT0 : DateTime :=
  { year := 2024, month := 2, day := 1, hour := 9, minute := 0, second := 0 }

/-- A date string that already carries a seconds field. -/
def withSecondsStr : String := "2024-01-01 09:00:00"

/-! ## C1: ranking threshold and order preservation -/

/-- C1: for every decoded upstream ranking array, fewer than 1000 rows
makes the fetch fail with `ShortRanking` and return no entries, while
exactly 1000 rows makes it succeed with entry `i` of the result derived
from row `i` of the input. -/
theorem c1_ranking_threshold_and_order (l : List RankResponseRawData) :
    (l.length < 1000 → top1000FromDecoded l = Except.error GoError.shortRanking) ∧
    (l.length = 1000 →
      top1000FromDecoded l = Except.ok (convertRawDataToResponse l) ∧
      ∀ i : Nat, (convertRawDataToResponse l)[i]? = l[i]?.map convertRow) := by
  constructor
  · intro h
    simp [top1000FromDecoded, h]
  · intro h
    refine ⟨by simp [top1000FromDecoded, h], fun i => ?_⟩
    simp [convertRawDataToResponse]

theorem c1_witness :
    top1000FromDecoded (List.replicate 999 row0) = Except.error GoError.shortRanking ∧
    top1000FromDecoded (List.replicate 1000 row0) =
      Except.ok (convertRawDataToResponse (List.replicate 1000 row0)) :=
  ⟨(c1_ranking_threshold_and_order (List.replicate 999 row0)).1
      (by simp only [List.length_replicate]; norm_num),
   ((c1_ranking_threshold_and_order (List.replicate 1000 row0)).2
      (by simp only [List.length_replicate])).1⟩

/-! ## C2: row transformation -/

/-- C2: the row transformation divides the rating by 1000, prefixes the
fixed icon base path, and passes rank, name and language through; on the
spec's concrete row it produces exactly the expected entry. -/
theorem c2_row_transformation :
    (∀ row : RankResponseRawData,
      (convertRow row).Rank = row.Rank ∧ (convertRow row).Name = row.Name ∧
      (convertRow row).Lng = row.Lng ∧
      (convertRow row).RatingValue = row.RatingValue / 1000 ∧
      (convertRow row).Icon = iconBaseUrl ++ row.Icon) ∧
    convertRow row0 = expectedRow0 := by
  refine ⟨fun row => ⟨rfl, rfl, rfl, rfl, rfl⟩, ?_⟩
  have h1 : (18230 : ℚ) / 1000 = 18.23 := by norm_num
  simp only [convertRow, row0, expectedRow0]
  rw [h1]
  rfl

/-! ## C3: no truncation above 1000 rows -/

/-- C3 counterexample: an accepted upstream array of 1001 rows yields a
success whose entry list has 1001 elements, not 1000. -/
theorem c3_no_truncation_counterexample :
    top1000FromDecoded (List.replicate 1001 row0) =
      Except.ok (List.replicate 1001 (convertRow row0)) ∧
    (List.replicate 1001 (convertRow row0)).length ≠ 1000 := by
  constructor
  · simp only [top1000FromDecoded, convertRawDataToResponse, List.length_replicate,
      List.map_replicate]
    rw [if_neg (by norm_num)]
  · simp only [List.length_replicate]
    norm_num

/-- C3 as amended: every accepted upstream array (length at least 1000) is
converted without truncation — the response carries exactly as many entries
as the upstream array, so exactly 1000 entries appear precisely when the
upstream array has exactly 1000 rows. -/
theorem c3_length_passthrough (l : List RankResponseRawData) (h : 1000 ≤ l.length) :
    top1000FromDecoded l = Except.ok (convertRawDataToResponse l) ∧
    (convertRawDataToResponse l).length = l.length := by
  refine ⟨by simp only [top1000FromDecoded]; rw [if_neg (Nat.not_lt.mpr h)],
    by simp only [convertRawDataToResponse, List.length_map]⟩

theorem c3_witness :
    top1000FromDecoded (List.replicate 1000 row0) =
      Except.ok (convertRawDataToResponse (List.replicate 1000 row0)) ∧
    (convertRawDataToResponse (List.replicate 1000 row0)).length =
      (List.replicate 1000 row0).length :=
  c3_length_passthrough (List.replicate 1000 row0)
    (by simp only [List.length_replicate]; exact le_rfl)

/-! ## C7: non-GET short-circuit -/

/-- C7: any request whose method is not GET is answered with status 405
and no upstream call is issued. -/
theorem c7_non_get_short_circuit (env : UpstreamEnv) (method : String)
    (h : method ≠ methodGet) :
    (RankingHandler env method).1.status = 405 ∧ (RankingHandler env method).2 = [] := by
  unfold RankingHandler
  rw [if_pos h]
  exact ⟨rfl, rfl⟩

theorem c7_witness :
    (RankingHandler envOk methodPost).1.status = 405 ∧
    (RankingHandler envOk methodPost).2 = [] :=
  c7_non_get_short_circuit envOk methodPost (by decide)

/-! ## Season-selection lemmas -/

/-- The nested selection loop over one group, expressed on the
concatenated record sequence. -/
theorem seasonMatchLoop_selectFlat (now : Nat) (g l : List SeasonData) :
    selectFlat now (g ++ l) =
      match seasonMatchLoop now g with
      | Except.error e => Except.error e
      | Except.ok (some s) => Except.ok s
      | Except.ok none => selectFlat now l := by
  induction g with
  | nil => rfl
  | cons s rest ih =>
    simp only [List.cons_append, selectFlat, seasonMatchLoop]
    cases h1 : goTimeParse (normalizeDate s.Start) with
    | none => rfl
    | some start =>
      cases h2 : goTimeParse (normalizeDate s.End) with
      | none => rfl
      | some endTime =>
        by_cases hc : timeKey start < now ∧ now < timeKey endTime
        · simp only [if_pos hc, normalizeRecord]
        · simp only [if_neg hc]
          exact ih

/-- The two-level selection loop equals the single-level loop on the
flattened record sequence. -/
theorem getLatest_eq_selectFlat (now : Nat) (groups : List (List SeasonData)) :
    getLatestSeasonData now groups = selectFlat now groups.flatten := by
  induction groups with
  | nil => rfl
  | cons g rest ih =>
    simp only [getLatestSeasonData, List.flatten_cons, seasonMatchLoop_selectFlat, ih]

/-- When every record's dates parse, the selection loop is exactly
first-match search for an active window. -/
theorem selectFlat_eq_find (now : Nat) (l : List SeasonData)
    (hp : ∀ s ∈ l, (parseWindow s).isSome) :
    selectFlat now l =
      match l.find? (activeAt now) with
      | some r => Except.ok (normalizeRecord r)
      | none => Except.error GoError.noActiveSeason := by
  induction l with
  | nil => rfl
  | cons s rest ih =>
    have hs : (parseWindow s).isSome = true := hp s (List.mem_cons_self s rest)
    cases h1 : goTimeParse (normalizeDate s.Start) with
    | none => exact absurd hs (by simp [parseWindow, h1])
    | some start =>
      cases h2 : goTimeParse (normalizeDate s.End) with
      | none => exact absurd hs (by simp [parseWindow, h1, h2])
      | some endTime =>
        have hact : activeAt now s = decide (timeKey start < now ∧ now < timeKey endTime) := by
          simp [activeAt, parseWindow, h1, h2]
        by_cases hc : timeKey start < now ∧ now < timeKey endTime
        · rw [List.find?_cons_of_pos rest (by rw [hact]; exact decide_eq_true hc)]
          simp only [selectFlat, h1, h2, if_pos hc]
        · rw [List.find?_cons_of_neg rest (by rw [hact]; simpa using hc)]
          simp only [selectFlat, h1, h2, if_neg hc]
          exact ih (fun x hx => hp x (List.mem_cons_of_mem s hx))

/-- First-match search is permutation-invariant when at most one element
satisfies the predicate. -/
theorem find_perm_of_unique {α : Type} (p : α → Bool) (l1 l2 : List α) (hperm : l1.Perm l2)
    (huniq : ∀ x ∈ l1, ∀ y ∈ l1, p x = true → p y = true → x = y) :
    l1.find? p = l2.find? p := by
  cases h1 : l1.find? p with
  | none =>
    cases h2 : l2.find? p with
    | none => rfl
    | some b =>
      have hb : p b = true := List.find?_some h2
      have hbm : b ∈ l1 := hperm.mem_iff.mpr (List.mem_of_find?_eq_some h2)
      exact absurd hb (List.find?_eq_none.mp h1 b hbm)
  | some a =>
    have ha : p a = true := List.find?_some h1
    have ham : a ∈ l1 := List.mem_of_find?_eq_some h1
    cases h2 : l2.find? p with
    | none => exact absurd ha (List.find?_eq_none.mp h2 a (hperm.mem_iff.mp ham))
    | some b =>
      have hb : p b = true := List.find?_some h2
      have hbm : b ∈ l1 := hperm.mem_iff.mpr (List.mem_of_find?_eq_some h2)
      rw [huniq a ham b hbm ha hb]

/-! ## C4: strict boundary semantics -/

/-- C4: a record is active only strictly inside its window; when `now`
equals a record's parsed start or end instant and no record of the catalog
is active, selection fails with `NoActiveSeason`. -/
theorem c4_boundary_strict (now : Nat) (groups : List (List SeasonData)) (r : SeasonData)
    (a b : Nat) (hw : parseWindow r = some (a, b)) (hb : now = a ∨ now = b)
    (hparse : ∀ s ∈ groups.flatten, (parseWindow s).isSome)
    (hother : ∀ s ∈ groups.flatten, s = r ∨ activeAt now s = false) :
    activeAt now r = false ∧
    getLatestSeasonData now groups = Except.error GoError.noActiveSeason := by
  have hrf : activeAt now r = false := by
    simp only [activeAt, hw]
    rcases hb with h | h
    · subst h
      simp only [decide_eq_false_iff_not]
      omega
    · subst h
      simp only [decide_eq_false_iff_not]
      omega
  refine ⟨hrf, ?_⟩
  have hall : ∀ s ∈ groups.flatten, ¬ activeAt now s = true := by
    intro s hsm
    rcases hother s hsm with h | h
    · rw [h, hrf]
      exact Bool.false_ne_true
    · rw [h]
      exact Bool.false_ne_true
  rw [getLatest_eq_selectFlat, selectFlat_eq_find now _ hparse,
    List.find?_eq_none.mpr hall]

theorem c4_witness :
    activeAt (timeKey startDT0) seasonGood = false ∧
    getLatestSeasonData (timeKey startDT0) [[seasonGood]] =
      Except.error GoError.noActiveSeason :=
  c4_boundary_strict (timeKey startDT0) [[seasonGood]] seasonGood
    (timeKey startDT0) (timeKey endDT0) (by decide) (Or.inl rfl) (by decide) (by decide)

/-! ## C6: iteration-order dependence -/

/-- C6 counterexample: with a malformed, non-matching record alongside an
active one, two iteration orders of the same catalog give different
outcomes — an error in one order, the active record in the other. -/
theorem c6_order_dependence_counterexample :
    ([seasonBad, seasonGood] : List SeasonData).Perm [seasonGood, seasonBad] ∧
    activeAt nowMid seasonBad = false ∧
    getLatestSeasonData nowMid [[seasonBad, seasonGood]] =
      Except.error GoError.malformedTimestamp ∧
    getLatestSeasonData nowMid [[seasonGood, seasonBad]] =
      Except.ok (normalizeRecord seasonGood) ∧
    (Except.error GoError.malformedTimestamp : Except GoError SeasonData) ≠
      Except.ok (normalizeRecord seasonGood) :=
  ⟨by decide, by decide, by decide, by decide, by decide⟩

/-- C6 as amended: when every record of the catalog has well-formed dates
and at most one record is active at the given instant (as non-overlapping
windows guarantee), selection returns the same outcome for any two
iteration orders of the two-level mapping. -/
theorem c6_order_independent (now : Nat) (g1 g2 : List (List SeasonData))
    (hperm : g1.flatten.Perm g2.flatten)
    (hparse : ∀ s ∈ g1.flatten, (parseWindow s).isSome)
    (huniq : ∀ x ∈ g1.flatten, ∀ y ∈ g1.flatten,
      activeAt now x = true → activeAt now y = true → x = y) :
    getLatestSeasonData now g1 = getLatestSeasonData now g2 := by
  have hp2 : ∀ s ∈ g2.flatten, (parseWindow s).isSome :=
    fun s hs => hparse s (hperm.mem_iff.mpr hs)
  rw [getLatest_eq_selectFlat, getLatest_eq_selectFlat,
    selectFlat_eq_find now _ hparse, selectFlat_eq_find now _ hp2,
    find_perm_of_unique (activeAt now) _ _ hperm huniq]

theorem c6_witness :
    getLatestSeasonData nowMid [[seasonGood], [seasonLater]] =
      getLatestSeasonData nowMid [[seasonLater, seasonGood]] :=
  c6_order_independent nowMid [[seasonGood], [seasonLater]] [[seasonLater, seasonGood]]
    (by decide) (by decide) (by decide)

/-! ## C9: the selected record is returned with rewritten date fields -/

/-- Any successfully selected record is some catalog record with both date
strings normalised. -/
theorem selectFlat_ok_mem (now : Nat) (l : List SeasonData) (s : SeasonData)
    (h : selectFlat now l = Except.ok s) : ∃ r, r ∈ l ∧ s = normalizeRecord r := by
  induction l with
  | nil => exact absurd h (by simp [selectFlat])
  | cons x rest ih =>
    simp only [selectFlat] at h
    cases h1 : goTimeParse (normalizeDate x.Start) with
    | none =>
      simp only [h1] at h
      exact Except.noConfusion h
    | some start =>
      simp only [h1] at h
      cases h2 : goTimeParse (normalizeDate x.End) with
      | none =>
        simp only [h2] at h
        exact Except.noConfusion h
      | some endTime =>
        simp only [h2] at h
        by_cases hc : timeKey start < now ∧ now < timeKey endTime
        · rw [if_pos hc] at h
          exact ⟨x, List.mem_cons_self x rest, (Except.ok.inj h).symm⟩
        · rw [if_neg hc] at h
          obtain ⟨r, hr, hs⟩ := ih h
          exact ⟨r, List.mem_cons_of_mem x hr, hs⟩

/-- C9 as amended: the season record embedded in a successful selection is
a catalog record whose `Start` and `End` strings have been rewritten to
their normalised forms (slashes to dashes, `:00` appended); all other
fields are unchanged. -/
theorem c9_selected_record_normalized (now : Nat) (groups : List (List SeasonData))
    (s : SeasonData) (h : getLatestSeasonData now groups = Except.ok s) :
    ∃ r, r ∈ groups.flatten ∧
      s = { r with Start := normalizeDate r.Start, End := normalizeDate r.End } := by
  rw [getLatest_eq_selectFlat] at h
  exact selectFlat_ok_mem now groups.flatten s h

theorem c9_witness :
    ∃ r, r ∈ ([[seasonGood]] : List (List SeasonData)).flatten ∧
      normalizeRecord seasonGood =
        { r with Start := normalizeDate r.Start, End := normalizeDate r.End } :=
  c9_selected_record_normalized nowMid [[seasonGood]] (normalizeRecord seasonGood) (by decide)

/-! ## C10: the catalog-fetch rewrite loop has no effect -/

theorem validateGroup_eq_check (g : List SeasonData) :
    validateGroup g = checkGroupDates g := by
  induction g with
  | nil => rfl
  | cons s rest ih =>
    simp only [validateGroup, checkGroupDates, validateSeasonData, checkSeasonDataDates]
    cases h1 : goTimeParse (normalizeDate s.Start) with
    | none => rfl
    | some start =>
      cases h2 : goTimeParse (normalizeDate s.End) with
      | none => rfl
      | some endTime => exact ih

theorem validateSeasons_eq_check (gs : List (List SeasonData)) :
    validateSeasons gs = checkSeasonsDates gs := by
  induction gs with
  | nil => rfl
  | cons g rest ih =>
    simp only [validateSeasons, checkSeasonsDates, validateGroup_eq_check]
    cases h : checkGroupDates g with
    | error e => rfl
    | ok u => exact ih

/-- C10: the date-rewrite loop inside the catalog fetch only validates —
the fetch equals the same function with the rewrite assignments removed,
and a successful fetch returns exactly the decoded catalog. -/
theorem c10_rewrite_loop_no_effect (env : UpstreamEnv) :
    fetchRankingData env = fetchRankingDataNoRewrite env ∧
    ∀ sl, fetchRankingData env = Except.ok sl → env.catalogOutcome = Except.ok sl := by
  constructor
  · unfold fetchRankingData fetchRankingDataNoRewrite
    cases hc : env.catalogOutcome with
    | error e => rfl
    | ok seasonList => simp only [validateSeasons_eq_check]
  · intro sl h
    unfold fetchRankingData at h
    cases hc : env.catalogOutcome with
    | error e =>
      simp only [hc] at h
      exact h
    | ok seasonList =>
      simp only [hc] at h
      cases hv : validateSeasons seasonList.Seasons with
      | error e =>
        simp only [hv] at h
        exact Except.noConfusion h
      | ok u =>
        simp only [hv] at h
        exact h

theorem c10_witness :
    fetchRankingData envOk = fetchRankingDataNoRewrite envOk ∧
    envOk.catalogOutcome = Except.ok slOk :=
  ⟨(c10_rewrite_loop_no_effect envOk).1,
   (c10_rewrite_loop_no_effect envOk).2 slOk (by decide)⟩

/-! ## Handler evaluation on the all-success environment -/

theorem fetchRankingData_envOk : fetchRankingData envOk = Except.ok slOk := by decide

theorem getLatest_envOk :
    getLatestSeasonData envOk.now slOk.Seasons = Except.ok (normalizeRecord seasonGood) := by
  decide

theorem fetchTop1000_envOk :
    fetchTop1000RankingData envOk = Except.ok (convertRawDataToResponse bigList) := by
  have h : envOk.rankingOutcome = Except.ok bigList := rfl
  unfold fetchTop1000RankingData
  simp only [h, top1000FromDecoded, bigList, List.length_replicate]
  rw [if_neg (by norm_num)]

/-- Full evaluation of the handler on the all-success environment. -/
theorem rankingHandler_envOk :
    RankingHandler envOk methodGet =
      ({ status := 200, headers := baseHeaders,
         body := some { SeasonData := normalizeRecord seasonGood,
                        Top1000 := convertRawDataToResponse bigList } },
       [UpstreamCall.catalogPost, UpstreamCall.rankingGet]) := by
  unfold RankingHandler
  rw [if_neg (by decide)]
  simp only [fetchRankingData_envOk, getLatest_envOk, fetchTop1000_envOk]

/-! ## C8: response headers -/

/-- C8 counterexample: the 405 response to a POST request does not carry
`Content-Type: application/json` — the error writer has overwritten it with
the plain-text content type (the CORS header does survive). -/
theorem c8_content_type_counterexample :
    (RankingHandler envOk methodPost).1.status = 405 ∧
    getHeader (RankingHandler envOk methodPost).1.headers contentTypeKey =
      some textPlainVal ∧
    textPlainVal ≠ jsonVal ∧
    getHeader (RankingHandler envOk methodPost).1.headers allowOriginKey = some starVal :=
  ⟨by decide, by decide, by decide, by decide⟩

/-- C8 as amended: both headers are set unconditionally on entry, and
`Access-Control-Allow-Origin: *` is present on every response; but
`Content-Type: application/json` survives only on the 200 response — on
every non-200 response (405 and every 500) the error writer has replaced it
with `text/plain; charset=utf-8`. -/
theorem c8_headers_on_entry (env : UpstreamEnv) (method : String) :
    getHeader (RankingHandler env method).1.headers allowOriginKey = some starVal ∧
    ((RankingHandler env method).1.status = 200 →
      getHeader (RankingHandler env method).1.headers contentTypeKey = some jsonVal) ∧
    ((RankingHandler env method).1.status ≠ 200 →
      getHeader (RankingHandler env method).1.headers contentTypeKey = some textPlainVal) := by
  unfold RankingHandler
  by_cases hm : method = methodGet
  · rw [if_neg (fun hne => hne hm)]
    cases hcat : fetchRankingData env with
    | error e =>
      simp only []
      exact ⟨by decide, by decide, by decide⟩
    | ok seasonList =>
      simp only []
      cases hsel : getLatestSeasonData env.now seasonList.Seasons with
      | error e =>
        simp only []
        exact ⟨by decide, by decide, by decide⟩
      | ok latestSeasonData =>
        simp only []
        cases htop : fetchTop1000RankingData env with
        | error e =>
          simp only []
          exact ⟨by decide, by decide, by decide⟩
        | ok top1000Data =>
          simp only []
          exact ⟨by decide, by decide, by decide⟩
  · rw [if_pos hm]
    exact ⟨by decide, by decide, by decide⟩

theorem c8_witness :
    (RankingHandler envOk methodGet).1.status = 200 ∧
    getHeader (RankingHandler envOk methodGet).1.headers contentTypeKey = some jsonVal ∧
    getHeader (RankingHandler envOk methodGet).1.headers allowOriginKey = some starVal := by
  have hs : (RankingHandler envOk methodGet).1.status = 200 := by
    rw [rankingHandler_envOk]
  exact ⟨hs, (c8_headers_on_entry envOk methodGet).2.1 hs, (c8_headers_on_entry envOk methodGet).1⟩

/-! ## C9 counterexample at the handler level -/

/-- C9 counterexample: in a fully successful request the `activeSeason`
record of the response body is not the record decoded from the catalog —
its `Start` string has been rewritten from `2024/01/01 09:00` to
`2024-01-01 09:00:00`. -/
theorem c9_start_modified_counterexample :
    envOk.catalogOutcome = Except.ok slOk ∧
    seasonGood ∈ slOk.Seasons.flatten ∧
    (RankingHandler envOk methodGet).1.status = 200 ∧
    ((RankingHandler envOk methodGet).1.body.map (fun b => b.SeasonData.Start)) =
      some normStartStr ∧
    seasonGood.Start ≠ normStartStr := by
  refine ⟨rfl, by decide, ?_, ?_, by decide⟩
  · rw [rankingHandler_envOk]
  · rw [rankingHandler_envOk]
    rfl

/-! ## Parser lemmas for C5 -/

theorem daysIn_le (m y : Nat) : daysIn m y ≤ 31 := by
  unfold daysIn
  split_ifs <;> omega

theorem digitVal?_digitChar {d : Nat} (h : d < 10) : digitVal? (digitChar d) = some d := by
  interval_cases d <;> decide

theorem getnum2_pad2 {n : Nat} (l : List Char) (h : n < 100) :
    getnum2 (pad2chars n ++ l) = some (n, l) := by
  have h1 : digitVal? (digitChar (n / 10 % 10)) = some (n / 10 % 10) :=
    digitVal?_digitChar (Nat.mod_lt _ (by omega))
  have h2 : digitVal? (digitChar (n % 10)) = some (n % 10) :=
    digitVal?_digitChar (Nat.mod_lt _ (by omega))
  simp only [pad2chars, List.cons_append, List.nil_append, getnum2, h1, h2]
  have hn : 10 * (n / 10 % 10) + n % 10 = n := by omega
  rw [hn]

theorem getnumFlex_pad2 {n : Nat} (l : List Char) (h : n < 100) :
    getnumFlex (pad2chars n ++ l) = some (n, l) := by
  have h1 : digitVal? (digitChar (n / 10 % 10)) = some (n / 10 % 10) :=
    digitVal?_digitChar (Nat.mod_lt _ (by omega))
  have h2 : digitVal? (digitChar (n % 10)) = some (n % 10) :=
    digitVal?_digitChar (Nat.mod_lt _ (by omega))
  simp only [pad2chars, List.cons_append, List.nil_append, getnumFlex, h1, h2]
  have hn : 10 * (n / 10 % 10) + n % 10 = n := by omega
  rw [hn]

theorem getnum4_pad4 {n : Nat} (l : List Char) (h : n < 10000) :
    getnum4 (pad4chars n ++ l) = some (n, l) := by
  have h1 : digitVal? (digitChar (n / 1000 % 10)) = some (n / 1000 % 10) :=
    digitVal?_digitChar (Nat.mod_lt _ (by omega))
  have h2 : digitVal? (digitChar (n / 100 % 10)) = some (n / 100 % 10) :=
    digitVal?_digitChar (Nat.mod_lt _ (by omega))
  have h3 : digitVal? (digitChar (n / 10 % 10)) = some (n / 10 % 10) :=
    digitVal?_digitChar (Nat.mod_lt _ (by omega))
  have h4 : digitVal? (digitChar (n % 10)) = some (n % 10) :=
    digitVal?_digitChar (Nat.mod_lt _ (by omega))
  simp only [pad4chars, List.cons_append, List.nil_append, getnum4, h1, h2, h3, h4]
  have hn : ((n / 1000 % 10 * 10 + n / 100 % 10) * 10 + n / 10 % 10) * 10 + n % 10 = n := by
    omega
  rw [hn]

theorem expectChar_cons (c : Char) (l : List Char) : expectChar c (c :: l) = some l := by
  simp [expectChar]

/-- The layout parser on the exact pattern shape: it consumes the nineteen
pattern characters and returns the components and the tail. -/
theorem parseCore_pattern (t : DateTime) (tail : List Char) (hy : t.year < 10000)
    (hmo : t.month < 100) (hd : t.day < 100) (hh : t.hour < 24) (hmi : t.minute < 60)
    (hs : t.second < 60) :
    parseCore (patternChars t tail) = some (t, tail) := by
  simp (disch := omega) only [patternChars, parseCore, getnum4_pad4, expectChar_cons,
    getnum2_pad2, getnumFlex_pad2, if_neg]

/-- Full-pattern strings with empty tail and in-range components parse. -/
theorem goTimeParse_pattern_nil (t : DateTime) (hv : ValidDateTime t) :
    goTimeParse (String.mk (patternChars t [])) = some t := by
  obtain ⟨h1, h2, h3, h4, h5, h6, h7, h8⟩ := hv
  have hle := daysIn_le t.month t.year
  unfold goTimeParse
  have hp : parseCore (patternChars t []) = some (t, []) :=
    parseCore_pattern t [] h1 (by omega) (by omega) h6 h7 h8
  simp only [hp]
  rw [if_neg (by simp), if_neg (by omega), if_neg (by omega)]

/-- Full-pattern strings with a non-empty tail are rejected as trailing
text. -/
theorem goTimeParse_pattern_extra (t : DateTime) (tail : List Char) (hv : ValidDateTime t)
    (htail : tail ≠ []) :
    goTimeParse (String.mk (patternChars t tail)) = none := by
  obtain ⟨h1, h2, h3, h4, h5, h6, h7, h8⟩ := hv
  have hle := daysIn_le t.month t.year
  unfold goTimeParse
  have hp : parseCore (patternChars t tail) = some (t, tail) :=
    parseCore_pattern t tail h1 (by omega) (by omega) h6 h7 h8
  simp only [hp]
  rw [if_pos htail]

theorem stringEq_of_data {a b : String} (h : a.data = b.data) : a = b := by
  cases a with
  | mk la =>
    cases b with
    | mk lb =>
      cases h
      rfl

theorem data_append (a b : String) : (a ++ b).data = a.data ++ b.data := by
  cases a with
  | mk la =>
    cases b with
    | mk lb => rfl

theorem replaceSlash_data (s : String) : (replaceSlash s).data = s.data.map slashToDash := rfl

theorem mk_data (l : List Char) : (String.mk l).data = l := rfl

theorem dashStr_data : dashStr.data = [dashChar] := by decide

theorem slashStr_data : slashStr.data = [slashChar] := by decide

theorem spaceStr_data : spaceStr.data = [spaceChar] := by decide

theorem colonStr_data : colonStr.data = [colonChar] := by decide

theorem secondsSuffix_data : secondsSuffix.data = colonChar :: pad2chars 0 := by decide

theorem slashToDash_digitChar {d : Nat} (h : d < 10) : slashToDash (digitChar d) = digitChar d := by
  interval_cases d <;> decide

theorem slashToDash_dash : slashToDash dashChar = dashChar := by decide

theorem slashToDash_space : slashToDash spaceChar = spaceChar := by decide

theorem slashToDash_colon : slashToDash colonChar = colonChar := by decide

theorem slashToDash_slash : slashToDash slashChar = dashChar := by decide

theorem map_slashToDash_pad2 (n : Nat) : (pad2chars n).map slashToDash = pad2chars n := by
  simp (disch := omega) only [pad2chars, List.map_cons, List.map_nil, slashToDash_digitChar]

theorem map_slashToDash_pad4 (n : Nat) : (pad4chars n).map slashToDash = pad4chars n := by
  simp (disch := omega) only [pad4chars, List.map_cons, List.map_nil, slashToDash_digitChar]

theorem normalizeDate_formatSlashNoSec (t : DateTime) :
    normalizeDate (formatSlashNoSec t) = String.mk (patternChars (noSeconds t) []) := by
  apply stringEq_of_data
  simp only [normalizeDate, data_append, replaceSlash_data, formatSlashNoSec, pad4, pad2,
    mk_data, dashStr_data, slashStr_data, spaceStr_data, colonStr_data, secondsSuffix_data,
    List.map_append, List.map_cons, List.map_nil, map_slashToDash_pad2, map_slashToDash_pad4,
    slashToDash_slash, slashToDash_space, slashToDash_colon, patternChars, noSeconds,
    List.append_assoc, List.singleton_append, List.cons_append, List.nil_append,
    List.append_nil]

theorem normalizeDate_formatDashNoSec (t : DateTime) :
    normalizeDate (formatDashNoSec t) = String.mk (patternChars (noSeconds t) []) := by
  apply stringEq_of_data
  simp only [normalizeDate, data_append, replaceSlash_data, formatDashNoSec, pad4, pad2,
    mk_data, dashStr_data, spaceStr_data, colonStr_data, secondsSuffix_data,
    List.map_append, List.map_cons, List.map_nil, map_slashToDash_pad2, map_slashToDash_pad4,
    slashToDash_dash, slashToDash_space, slashToDash_colon, patternChars, noSeconds,
    List.append_assoc, List.singleton_append, List.cons_append, List.nil_append,
    List.append_nil]

theorem normalizeDate_formatDateTime (t : DateTime) :
    normalizeDate (formatDateTime t) = String.mk (patternChars t (colonChar :: pad2chars 0)) := by
  apply stringEq_of_data
  simp only [normalizeDate, data_append, replaceSlash_data, formatDateTime, pad4, pad2,
    mk_data, dashStr_data, spaceStr_data, colonStr_data, secondsSuffix_data,
    List.map_append, List.map_cons, List.map_nil, map_slashToDash_pad2, map_slashToDash_pad4,
    slashToDash_dash, slashToDash_space, slashToDash_colon, patternChars,
    List.append_assoc, List.singleton_append, List.cons_append, List.nil_append,
    List.append_nil]

theorem validDateTime_noSeconds {t : DateTime} (hv : ValidDateTime t) :
    ValidDateTime (noSeconds t) := by
  obtain ⟨h1, h2, h3, h4, h5, h6, h7, h8⟩ := hv
  refine ⟨h1, h2, h3, h4, h5, h6, h7, ?_⟩
  show (0 : Nat) < 60
  omega

/-! ## C5: the time-window parser -/

/-- C5 counterexample: `2024-01-01 09:00:00` is a valid date string of the
fixed pattern — it already carries a seconds field — yet the program's
parser rejects it with `MalformedTimestamp`, because the `:00` suffix is
appended unconditionally, not only when seconds are absent. -/
theorem c5_seconds_counterexample :
    goTimeParse withSecondsStr = some startDT0 ∧
    parseUpstreamDate withSecondsStr = Except.error GoError.malformedTimestamp :=
  ⟨by decide, by decide⟩

/-- C5 as amended: the parser normalises slashes to dashes and appends a
seconds field unconditionally, then parses in the fixed layout; it fails
with `MalformedTimestamp` exactly when the suffixed normalised string does
not match the layout.  Every valid date string without a seconds field
parses, whether slash- or dash-separated, but a date string that already
carries a seconds field is rejected. -/
theorem c5_parser_normalization (t : DateTime) (hv : ValidDateTime t) (s : String) :
    parseUpstreamDate (formatSlashNoSec t) = Except.ok (noSeconds t) ∧
    parseUpstreamDate (formatDashNoSec t) = Except.ok (noSeconds t) ∧
    parseUpstreamDate (formatDateTime t) = Except.error GoError.malformedTimestamp ∧
    (parseUpstreamDate s = Except.error GoError.malformedTimestamp ↔
      goTimeParse (normalizeDate s) = none) := by
  have hslash : goTimeParse (normalizeDate (formatSlashNoSec t)) = some (noSeconds t) := by
    rw [normalizeDate_formatSlashNoSec]
    exact goTimeParse_pattern_nil (noSeconds t) (validDateTime_noSeconds hv)
  have hdash : goTimeParse (normalizeDate (formatDashNoSec t)) = some (noSeconds t) := by
    rw [normalizeDate_formatDashNoSec]
    exact goTimeParse_pattern_nil (noSeconds t) (validDateTime_noSeconds hv)
  have hfull : goTimeParse (normalizeDate (formatDateTime t)) = none := by
    rw [normalizeDate_formatDateTime]
    exact goTimeParse_pattern_extra t (colonChar :: pad2chars 0) hv (by simp)
  refine ⟨?_, ?_, ?_, ?_⟩
  · unfold parseUpstreamDate
    simp only [hslash]
  · unfold parseUpstreamDate
    simp only [hdash]
  · unfold parseUpstreamDate
    simp only [hfull]
  · unfold parseUpstreamDate
    cases h : goTimeParse (normalizeDate s) with
    | none => simp
    | some u => simp

theorem c5_witness :
    parseUpstreamDate (formatSlashNoSec startDT0) = Except.ok (noSeconds startDT0) ∧
    parseUpstreamDate (formatDashNoSec startDT0) = Except.ok (noSeconds startDT0) ∧
    parseUpstreamDate (formatDateTime startDT0) = Except.error GoError.malformedTimestamp ∧
    (parseUpstreamDate withSecondsStr = Except.error GoError.malformedTimestamp ↔
      goTimeParse (normalizeDate withSecondsStr) = none) :=
  c5_parser_normalization startDT0 (by decide) withSecondsStr

end RankBattle
